import Mathlib

/-!
Shallow embedding of the StatementReader extraction-and-classification
pipeline.  Money values are modelled as rationals; the decimal literals of
the source (e.g. the fixed USD→GTQ rate `7.8`) become the exact rationals
they denote.  Each PDF parser's per-line regular grammar is modelled by an
`Option`-valued line record: `none` stands for a line that is skipped
(noise keyword, grammar mismatch, or a date/number that fails to parse
inside the `try` block), `some l` for a line whose captured groups parsed
successfully.  Everything downstream of the grammar is translated
field-by-field from the Python source.
-/

namespace StatementReader

/-! ## String helpers

Kernel-reducible implementations (structural recursion over the
character list of a `String`) of the Python string methods the source
uses; the corresponding core `String` functions are avoided because
their byte-position recursion does not reduce inside the kernel. -/

/-- Characters of a string with leading and trailing whitespace removed:
Python `str.strip()`. -/
def trimChars (cs : List Char) : List Char :=
  ((cs.dropWhile Char.isWhitespace).reverse.dropWhile Char.isWhitespace).reverse

/-- Python `str.strip()`. -/
def strTrim (s : String) : String := String.mk (trimChars s.data)

/-- Python `str.lower()`. -/
def strToLower (s : String) : String := String.mk (s.data.map Char.toLower)

/-- Python `str.upper()`. -/
def strToUpper (s : String) : String := String.mk (s.data.map Char.toUpper)

/-- Python `s.replace(c, '')` for a one-character needle (the only shape
of `replace` the source uses). -/
def strRemoveChar (c : Char) (s : String) : String :=
  String.mk (s.data.filter (fun d => d != c))

/-- Python `s.startswith(p)`. -/
def strStartsWith (s p : String) : Bool := p.data.isPrefixOf s.data

/-- Python `s.endswith(p)`. -/
def strEndsWith (s p : String) : Bool := p.data.reverse.isPrefixOf s.data.reverse

/-- Helper for `strSplitOnChar`: accumulates the current chunk in
reverse. -/
def splitOnCharAux (c : Char) : List Char → List Char → List (List Char)
  | cur, [] => [cur.reverse]
  | cur, d :: ds =>
    if d = c then cur.reverse :: splitOnCharAux c [] ds
    else splitOnCharAux c (d :: cur) ds

/-- Python `s.split(c)` for a one-character separator. -/
def strSplitOnChar (c : Char) (s : String) : List String :=
  (splitOnCharAux c [] s.data).map String.mk

/-- Value of a digit run, as `int` computes it. -/
def digitsToNat (cs : List Char) : Nat :=
  cs.foldl (fun n c => n * 10 + (c.toNat - '0'.toNat)) 0

/-- Python `int(s)` on the plain digit numerals the CSV dates contain;
`none` models `ValueError`. -/
def strToNat (s : String) : Option Nat :=
  if s.data ≠ [] ∧ s.data.all Char.isDigit then some (digitsToNat s.data) else none

/-- Single-character-separator interleaving, for `'\n'.join(...)`. -/
def intercalateChars (sep : Char) : List (List Char) → List Char
  | [] => []
  | [x] => x
  | x :: xs => x ++ sep :: intercalateChars sep xs

/-- Python `'\n'.join(pages)`. -/
def strJoinNewline (pages : List String) : String :=
  String.mk (intercalateChars '\n' (pages.map String.data))


/-- Calendar date as produced by `datetime.strptime(...).date()`. -/
structure Date where
  year : Nat
  month : Nat
  day : Nat
deriving DecidableEq, Repr, Inhabited

/-- The `Transaction Type` field: the only sanctioned carrier of
credit/debit direction according to the spec. -/
inductive TransType where
  | credit
  | debit
deriving DecidableEq, Repr, Inhabited

/-- The canonical extracted record (the dictionaries built by each
parser).  `originalValue`/`originalCurrency` are `Option` because the
plain `BancoIndustrialParser` omits those keys. -/
structure Transaction where
  date : Date
  description : String
  originalDescription : String
  amount : ℚ
  transactionType : TransType
  category : String
  accountName : String
  originalValue : Option ℚ := none
  originalCurrency : Option String := none
deriving DecidableEq, Repr, Inhabited

/-! ## BancoIndustrialCheckingParser (GTQ checking, balance-diff) -/

/-- One successfully matched and parsed line of the BI GTQ checking
grammar: `Date DocNo Description Amount Balance`.  The `amount` and
`balance` fields are the parsed `[\d,]+\.\d{2}` groups. -/
structure BICheckLine where
  date : Date
  reference : String
  description : String
  amount : ℚ
  balance : ℚ
deriving DecidableEq, Repr

/-- The loop body of `BancoIndustrialCheckingParser._parse_page_text`,
threading `previous_balance` (`none` = Python `None`). -/
def biCheckingStep (isSpouse : Bool) : Option ℚ → List (Option BICheckLine) → List Transaction
  | _, [] => []
  | prev, none :: rest => biCheckingStep isSpouse prev rest
  | prev, some l :: rest =>
    let p : TransType × ℚ :=
      match prev with
      | some pb => if l.balance - pb > 0 then (TransType.credit, |l.amount|) else (TransType.debit, -|l.amount|)
      | none => (TransType.credit, |l.amount|)
    { date := l.date
      description := strTrim l.description
      originalDescription := strTrim l.description
      amount := p.2
      transactionType := p.1
      category := ""
      accountName := if isSpouse then "Industrial GTQ (Spouse)" else "Industrial GTQ"
      originalValue := some |p.2|
      originalCurrency := some "GTQ" } :: biCheckingStep isSpouse (some l.balance) rest

/-- Method `_parse_page_text`: `previous_balance` starts as `None` on every call. -/
def biCheckingParsePage (isSpouse : Bool) (lines : List (Option BICheckLine)) : List Transaction :=
  biCheckingStep isSpouse none lines

/-- Method `extract_data`: `_parse_page_text` is invoked once per page, so the
threaded balance resets at each page boundary. -/
def biCheckingExtract (isSpouse : Bool) (pages : List (List (Option BICheckLine))) : List Transaction :=
  (pages.map (biCheckingParsePage isSpouse)).flatten

/-! ## BIUSDCheckingParser (USD checking, balance-diff + conversion) -/

/-- One matched line of the BI USD checking grammar (reference group is
optional there). -/
structure BIUSDLine where
  date : Date
  reference : Option String
  description : String
  amount : ℚ
  balance : ℚ
deriving DecidableEq, Repr

/-- Loop body of `BIUSDCheckingParser._parse_page_text`: amounts and
balances are converted USD→GTQ with the fixed rate `7.8` before the
balance comparison, and `previous_balance` stores the converted value. -/
def biUSDStep (isSpouse : Bool) : Option ℚ → List (Option BIUSDLine) → List Transaction
  | _, [] => []
  | prev, none :: rest => biUSDStep isSpouse prev rest
  | prev, some l :: rest =>
    let amountGtq : ℚ := l.amount * (39/5)
    let currentBalance : ℚ := l.balance * (39/5)
    let p : TransType × ℚ :=
      match prev with
      | some pb => if currentBalance - pb > 0 then (TransType.credit, |amountGtq|) else (TransType.debit, -|amountGtq|)
      | none => (TransType.credit, |amountGtq|)
    { date := l.date
      description := strTrim l.description
      originalDescription := strTrim l.description
      amount := p.2
      transactionType := p.1
      category := ""
      accountName := if isSpouse then "Industrial USD 9384 (Spouse)" else "Industrial USD 9384"
      originalValue := some |l.amount|
      originalCurrency := some "USD" } :: biUSDStep isSpouse (some currentBalance) rest

/-- Method `BIUSDCheckingParser._parse_page_text`. -/
def biUSDParsePage (isSpouse : Bool) (lines : List (Option BIUSDLine)) : List Transaction :=
  biUSDStep isSpouse none lines

/-- Method `BIUSDCheckingParser.extract_data` (per-page reset, identical loop
shape to the GTQ parser). -/
def biUSDExtract (isSpouse : Bool) (pages : List (List (Option BIUSDLine))) : List Transaction :=
  (pages.map (biUSDParsePage isSpouse)).flatten

/-! ## BancoIndustrialParser (separate debit/credit columns) -/

/-- One matched line of the plain `BancoIndustrialParser` grammar:
`Date DocNo Description [Debit] [Credit] Balance`; the debit and credit
groups are optional, Python turns a missing group into `0.0`. -/
structure BIPlainLine where
  date : Date
  docNum : String
  description : String
  debit : Option ℚ
  credit : Option ℚ
  balance : ℚ
deriving DecidableEq, Repr

/-- Per-line body of `BancoIndustrialParser._parse_page_text` lines 44-49:
`amount = -debit if debit else credit`, `transaction_type = 'debit' if
debit else 'credit'` (Python float truthiness: a `0.0` debit selects the
credit branch). -/
def biPlainParseLine (l : BIPlainLine) : Transaction :=
  let debit : ℚ := l.debit.getD 0
  let credit : ℚ := l.credit.getD 0
  let p : ℚ × TransType := if debit ≠ 0 then (-debit, TransType.debit) else (credit, TransType.credit)
  { date := l.date
    description := strTrim l.description
    originalDescription := strTrim l.description
    amount := p.1
    transactionType := p.2
    category := ""
    accountName := "Banco Industrial" }

/-- Method `BancoIndustrialParser._parse_page_text` over the matched lines. -/
def biPlainParsePage : List (Option BIPlainLine) → List Transaction
  | [] => []
  | none :: rest => biPlainParsePage rest
  | some l :: rest => biPlainParseLine l :: biPlainParsePage rest

/-! ## BancoIndustrialCreditUSDParser (explicit type codes, hard stop) -/

/-- Constant `BancoIndustrialCreditUSDParser.DEBIT_TYPES`. -/
def DEBIT_TYPES : List String := ["DEBITO", "CONSUMO"]

/-- Constant `BancoIndustrialCreditUSDParser.CREDIT_TYPES`. -/
def CREDIT_TYPES : List String := ["PAGO AGENC", "PAGO", "CREDITO"]

/-- One matched line of the BI credit USD grammar:
`Date TransType DocNo Establishment $.Amount $.Balance`. -/
structure BICreditLine where
  date : Date
  transType : String
  docNum : String
  establishment : String
  amount : ℚ
deriving DecidableEq, Repr

/-- Build the transaction for a credit-card line with a known type code
(the `amount_gtq` is negated for debit types). -/
def biCreditMkTransaction (isSpouse : Bool) (l : BICreditLine) (isDebit : Bool) : Transaction :=
  let amountGtq : ℚ := l.amount * (39/5)
  { date := l.date
    description := strTrim l.establishment
    originalDescription := strTrim l.establishment
    amount := if isDebit then -amountGtq else amountGtq
    transactionType := if isDebit then TransType.debit else TransType.credit
    category := ""
    accountName := if isSpouse then "BI 1116 USD (Spouse)" else "BI 1116 USD"
    originalValue := some |l.amount|
    originalCurrency := some "USD" }

/-- Method `BancoIndustrialCreditUSDParser._parse_page_text`: emits transactions
for known codes and accumulates unknown (stripped) codes; an unknown code
produces no transaction (`continue`). -/
def biCreditParsePage (isSpouse : Bool) : List (Option BICreditLine) → List Transaction × List String
  | [] => ([], [])
  | none :: rest => biCreditParsePage isSpouse rest
  | some l :: rest =>
    let t := strTrim l.transType
    let p := biCreditParsePage isSpouse rest
    if t ∈ DEBIT_TYPES then (biCreditMkTransaction isSpouse l true :: p.1, p.2)
    else if t ∈ CREDIT_TYPES then (biCreditMkTransaction isSpouse l false :: p.1, p.2)
    else (p.1, t :: p.2)

/-- Insertion into a `<`-sorted list of strings (models Python's
`sorted`). -/
def insertStr (s : String) : List String → List String
  | [] => [s]
  | x :: xs => if x < s then x :: insertStr s xs else s :: x :: xs

/-- Python `sorted(unknown_types)` over a list of strings. -/
def sortStrs (l : List String) : List String := l.foldr insertStr []

/-- The union (as a list, before dedup) of the per-page unknown-code
sets accumulated by `extract_data`. -/
def biCreditUnknowns (isSpouse : Bool) (pages : List (List (Option BICreditLine))) :
    List String :=
  ((pages.map (biCreditParsePage isSpouse)).map Prod.snd).flatten

/-- Method `BancoIndustrialCreditUSDParser.extract_data`: concatenates the
per-page transactions, unions the per-page unknown-code sets, and raises
(`Except.error`, carrying the sorted set of unknown codes) whenever that
set is non-empty; only otherwise is the transaction list returned. -/
def biCreditExtract (isSpouse : Bool) (pages : List (List (Option BICreditLine))) :
    Except (List String) (List Transaction) :=
  if (biCreditUnknowns isSpouse pages).isEmpty then
    Except.ok ((pages.map (biCreditParsePage isSpouse)).map Prod.fst).flatten
  else Except.error (sortStrs (biCreditUnknowns isSpouse pages).dedup)

/-! ## GyTCreditParser (sign carried by the currency-code group) -/

/-- One matched line of the GyT credit grammar:
`Fecha Referencia Descripción [-](QTZ|GTQ|DOL|USD) Amount`.  `value` is
the parsed amount group (non-negative by the grammar), `currencyCode` the
raw currency group including any leading minus sign. -/
structure GyTLine where
  date : Date
  reference : String
  description : String
  currencyCode : String
  value : ℚ
deriving DecidableEq, Repr

/-- Per-line body of `GyTCreditParser._parse_page_text`: the minus sign on
the currency group negates the original value, USD values are converted at
the fixed rate `7.8`, and the type is `credit` exactly when the converted
amount is `≥ 0`. -/
def gytParseLine (isSpouse : Bool) (l : GyTLine) : Transaction :=
  let cleanCurrency := strRemoveChar '-' l.currencyCode
  let originalCurrency := if cleanCurrency = "DOL" ∨ cleanCurrency = "USD" then "USD" else "GTQ"
  let originalValue := if strStartsWith l.currencyCode "-" then -l.value else l.value
  let amount := if originalCurrency = "USD" then originalValue * (39/5) else originalValue
  { date := l.date
    description := strTrim l.description
    originalDescription := strTrim l.description
    amount := amount
    transactionType := if 0 ≤ amount then TransType.credit else TransType.debit
    category := ""
    accountName := if isSpouse then "GyT 5978 (Spouse)" else "GyT 5978"
    originalValue := some originalValue
    originalCurrency := some originalCurrency }

/-- Method `GyTCreditParser._parse_page_text`: no state is threaded between
lines. -/
def gytParsePage (isSpouse : Bool) : List (Option GyTLine) → List Transaction
  | [] => []
  | none :: rest => gytParsePage isSpouse rest
  | some l :: rest => gytParseLine isSpouse l :: gytParsePage isSpouse rest

/-! ## BICheckingCSVParser (CSV rows with explicit TT codes) -/

/-- One data row of the BI checking CSV, each cell as the string
`str(row[col]).  A pandas missing cell stringifies to `"nan"`. -/
structure CSVRow where
  fecha : String
  tt : String
  descripcion : String
  debe : String
  haber : String
deriving DecidableEq, Repr

/-- Python `float(s)` on the decimal grammar the statements use:
optional sign, digit run, optional `.` and fraction digits; `none` models
the `ValueError` that the row loop catches. -/
def parseFloat (s : String) : Option ℚ :=
  let cs := trimChars s.data
  let p : ℚ × List Char :=
    match cs with
    | '-' :: rest => (-1, rest)
    | '+' :: rest => (1, rest)
    | _ => (1, cs)
  let intPart := p.2.takeWhile Char.isDigit
  let rest := p.2.drop intPart.length
  match rest with
  | [] => if intPart.isEmpty then none else some (p.1 * digitsToNat intPart)
  | '.' :: frac =>
    if frac.all Char.isDigit ∧ ¬(intPart.isEmpty ∧ frac.isEmpty) then
      some (p.1 * ((digitsToNat intPart : ℚ) + (digitsToNat frac : ℚ) / (10 ^ frac.length)))
    else none
  | _ => none

/-- Gregorian leap-year rule (as `datetime` validates dates). -/
def isLeapYear (y : Nat) : Bool := (y % 4 = 0 ∧ y % 100 ≠ 0) ∨ y % 400 = 0

/-- Days in a month, for `datetime(year, month, day)` validity. -/
def daysInMonth (y m : Nat) : Nat :=
  if m = 2 then (if isLeapYear y then 29 else 28)
  else if m = 4 ∨ m = 6 ∨ m = 9 ∨ m = 11 then 30
  else 31

/-- Python `datetime(year, month, day).date()`: `none` models the `ValueError`
for an out-of-range month or day. -/
def mkDate (y m d : Nat) : Option Date :=
  if 1 ≤ m ∧ m ≤ 12 ∧ 1 ≤ d ∧ d ≤ daysInMonth y m then some ⟨y, m, d⟩ else none

/-- Python `re.match(r'\d{1,2}\s*-\s*\d{1,2}', fecha_str)`: one or two digits
(a longer digit run can never satisfy the following `-`), optional
whitespace, `-`, optional whitespace, at least one digit. -/
def fechaValid (s : String) : Bool :=
  let cs := s.data
  let ds := cs.takeWhile Char.isDigit
  let rest := cs.drop ds.length
  (decide (ds.length = 1 ∨ ds.length = 2)) &&
    (match rest.dropWhile Char.isWhitespace with
     | '-' :: r2 => !((r2.dropWhile Char.isWhitespace).takeWhile Char.isDigit).isEmpty
     | _ => false)

/-- Whether a Debe/Haber cell participates: non-empty and not the pandas
`"nan"` rendering (after `strip()`). -/
def cellUsable (s : String) : Bool := s ≠ "" && s ≠ "nan"

/-- Method `BICheckingCSVParser._parse_transaction_row`: `none` covers both the
explicit `return None` paths and the exceptions the caller's `try` block
swallows (unparseable day/month numerals, invalid date, unparseable
amount). -/
def ttCodeToType (ttCode : String) : TransType :=
  if ttCode = "NC" ∨ ttCode = "DE" then TransType.credit
  else if ttCode = "ND" ∨ ttCode = "CQ" then TransType.debit
  else TransType.debit

/-- The `Debe`-before-`Haber` amount selection of
`_parse_transaction_row`: `Debe` is used whenever its (stripped) cell is
usable, only otherwise `Haber`; two unusable cells yield `none`
(`return None`), an unusable numeral yields `none` (`ValueError`). -/
def rowAmount (debeValue haberValue : String) : Option ℚ :=
  if cellUsable debeValue then parseFloat (strRemoveChar ',' debeValue)
  else if cellUsable haberValue then parseFloat (strRemoveChar ',' haberValue)
  else none

def parseTransactionRow (row : CSVRow) (year : Nat) : Option Transaction :=
  let fechaStr := strTrim row.fecha
  if fechaValid fechaStr then
    let parts := strSplitOnChar '-' (strRemoveChar ' ' fechaStr)
    match (parts.get? 0).bind strToNat, (parts.get? 1).bind strToNat with
    | some day, some month =>
      match mkDate year month day with
      | some dateObj =>
        match rowAmount (strTrim row.debe) (strTrim row.haber) with
        | some amountRaw =>
          some { date := dateObj
                 description := strTrim row.descripcion
                 originalDescription := strTrim row.descripcion
                 amount := |amountRaw|
                 transactionType := ttCodeToType (strToUpper (strTrim row.tt))
                 category := ""
                 accountName := "Industrial GTQ"
                 originalValue := some |amountRaw|
                 originalCurrency := some "GTQ" }
        | none => none
      | none => none
    | _, _ => none
  else none

/-- The row loop of `BICheckingCSVParser.extract_data`: a row whose parse
returns `None` or raises is skipped and the remaining rows are still
processed. -/
def biCSVParseRows (rows : List CSVRow) (year : Nat) : List Transaction :=
  rows.filterMap (fun r => parseTransactionRow r year)

/-! ## PDFProcessor (text layer with OCR fallback) -/

/-- Method `PDFProcessor._extract_text`: per-page text joined by newlines
(pages whose `extract_text()` is `None` contribute `''`). -/
def extract_text (pages : List String) : String := strJoinNewline pages

/-- Method `PDFProcessor._process_with_ocr`: per-page OCR output joined by
newlines, in page order. -/
def process_with_ocr (ocrPages : List String) : String := strJoinNewline ocrPages

/-- Method `PDFProcessor._is_valid_text`: `bool(text and len(text.strip()) >= 50)`. -/
def is_valid_text (text : String) : Bool :=
  !text.data.isEmpty && decide (50 ≤ (trimChars text.data).length)

/-- Method `PDFProcessor.process`: direct extraction if its result passes
`_is_valid_text`, otherwise the OCR pass over the whole document. -/
def pdfProcess (pages ocrPages : List String) : String :=
  let text := extract_text pages
  if is_valid_text text then text else process_with_ocr ocrPages

/-- Modelled from the spec: the number of non-whitespace characters of a
string, the quantity the spec's 50-character threshold is stated over. -/
def countNonWhitespace (s : String) : Nat :=
  (s.data.filter (fun c => !c.isWhitespace)).length

/-! ## Classification engine (views.py and recategorize script) -/

/-- The `match_type` of a `TransactionPattern`. -/
inductive MatchType where
  | exact
  | contains
  | startsWith
  | endsWith
  | regex
deriving DecidableEq, Repr

/-- A `TransactionPattern` row (`category` is the referenced category's
identifier). -/
structure Pattern where
  pattern : String
  matchType : MatchType
  confidence : ℚ
  isActive : Bool
  category : String
deriving DecidableEq, Repr

/-- The fields of a stored `Transaction` model that classification reads
or writes. -/
structure DBTransaction where
  description : String
  category : Option String
  categoryConfidence : ℚ
  manuallyCategorized : Bool
deriving DecidableEq, Repr

/-- Python's substring operator `pat in s`, over the character lists of
the two strings. -/
def charsContain (pat : List Char) : List Char → Bool
  | [] => pat.isEmpty
  | c :: cs => pat.isPrefixOf (c :: cs) || charsContain pat cs

/-- An oracle for Python's `re.search`: `Except.error ()` models
`re.error` on a malformed pattern, `Except.ok b` a successful search with
result `b`.  The embedding is parametric in the engine; each call site
below passes exactly the strings the Python passes. -/
def RegexEngine : Type := String → String → Except Unit Bool

/-- Insert a pattern into a confidence-descending list, after all
entries of greater-or-equal confidence (stable order for ties). -/
def insertByConf (p : Pattern) : List Pattern → List Pattern
  | [] => [p]
  | q :: qs => if q.confidence < p.confidence then p :: q :: qs else q :: insertByConf p qs

/-- Django `order_by('-confidence')`: stable descending sort by confidence. -/
def sortByConfDesc (ps : List Pattern) : List Pattern :=
  ps.foldl (fun acc p => insertByConf p acc) []

/-- The match test of `views.auto_categorize_transaction`: every branch
compares against `pattern.pattern.lower()` and the already-lowercased
description; a `re.error` (`continue`) has the same effect as a
non-match. -/
def viewsMatchFound (research : RegexEngine) (description : String) (p : Pattern) : Bool :=
  let patternText := strToLower p.pattern
  match p.matchType with
  | MatchType.exact => description == patternText
  | MatchType.contains => charsContain patternText.data description.data
  | MatchType.startsWith => strStartsWith description patternText
  | MatchType.endsWith => strEndsWith description patternText
  | MatchType.regex =>
    match research patternText description with
    | Except.ok b => b
    | Except.error _ => false

/-- The pattern loop of `views.auto_categorize_transaction`: first match
sets `category` and `category_confidence` and breaks. -/
def viewsApplyPatterns (research : RegexEngine) (description : String) (t : DBTransaction) :
    List Pattern → DBTransaction
  | [] => t
  | p :: ps =>
    if viewsMatchFound research description p then
      { t with category := some p.category, categoryConfidence := p.confidence }
    else viewsApplyPatterns research description t ps

/-- Function `views.auto_categorize_transaction`: lowercases the description once,
queries the active patterns in confidence-descending order, and applies
the first match.  There is no `manually_categorized` check in this
implementation. -/
def autoCategorizeViews (research : RegexEngine) (patterns : List Pattern) (t : DBTransaction) :
    DBTransaction :=
  viewsApplyPatterns research (strToLower t.description) t (sortByConfDesc (patterns.filter (·.isActive)))

/-- The match test of the recategorize script: lowered pattern against
lowered description except for `regex`, which runs on the original-case
description with `re.IGNORECASE` (the oracle stands for that
case-insensitive engine); a bare `except` maps any failure to
`matched = False`. -/
def scriptMatched (researchIC : RegexEngine) (originalDescription descriptionLower : String)
    (p : Pattern) : Bool :=
  match p.matchType with
  | MatchType.exact => descriptionLower == strToLower p.pattern
  | MatchType.contains => charsContain (strToLower p.pattern).data descriptionLower.data
  | MatchType.startsWith => strStartsWith descriptionLower (strToLower p.pattern)
  | MatchType.endsWith => strEndsWith descriptionLower (strToLower p.pattern)
  | MatchType.regex =>
    match researchIC p.pattern originalDescription with
    | Except.ok b => b
    | Except.error _ => false

/-- The pattern loop of the script's `auto_categorize_transaction`;
returns the updated transaction and whether a rule matched. -/
def scriptApplyPatterns (researchIC : RegexEngine) (originalDescription descriptionLower : String)
    (t : DBTransaction) : List Pattern → DBTransaction × Bool
  | [] => (t, false)
  | p :: ps =>
    if scriptMatched researchIC originalDescription descriptionLower p then
      ({ t with category := some p.category, categoryConfidence := p.confidence }, true)
    else scriptApplyPatterns researchIC originalDescription descriptionLower t ps

/-- Function `scripts/recategorize_transactions.auto_categorize_transaction`:
returns immediately, changing nothing, when `manually_categorized` is
set. -/
def autoCategorizeScript (researchIC : RegexEngine) (patterns : List Pattern)
    (t : DBTransaction) : DBTransaction × Bool :=
  if t.manuallyCategorized then (t, false)
  else scriptApplyPatterns researchIC t.description (strToLower t.description) t
    (sortByConfDesc (patterns.filter (·.isActive)))

/-! ## Spec-side model of balance-diff typing (from the spec's words) -/

/-- Modelled from the spec: `balance_change = current_balance -
previous_balance`; `balance_change > 0` ⇒ credit, otherwise debit; a line
with no prior balance is defaulted to credit.  Used to compare the
parsers against the spec sentence of C3. -/
def balanceDiffTypes : Option ℚ → List ℚ → List TransType
  | _, [] => []
  | none, b :: bs => TransType.credit :: balanceDiffTypes (some b) bs
  | some pb, b :: bs =>
    (if b - pb > 0 then TransType.credit else TransType.debit) :: balanceDiffTypes (some b) bs

/-- Modelled from the spec: Python's `round(x, 2)` as the spec's
currency round-trip property states it (round to the nearest multiple of
`1/100`; the tie-breaking rule is irrelevant at the inputs used below). -/
def round2 (q : ℚ) : ℚ := (⌊q * 100 + 1/2⌋ : ℤ) / 100

/-! # Helper lemmas -/

theorem biCheckingStep_sign (isSpouse : Bool) (prev : Option ℚ)
    (lines : List (Option BICheckLine)) :
    ∀ t ∈ biCheckingStep isSpouse prev lines,
      (t.transactionType = TransType.credit → 0 ≤ t.amount) ∧
      (t.transactionType = TransType.debit → t.amount ≤ 0) := by
  induction lines generalizing prev with
  | nil => intro t ht; simp [biCheckingStep] at ht
  | cons hd rest ih =>
    cases hd with
    | none =>
      intro t ht
      simp only [biCheckingStep] at ht
      exact ih prev t ht
    | some l =>
      intro t ht
      simp only [biCheckingStep] at ht
      rcases List.mem_cons.mp ht with h | h
      · subst h
        cases prev with
        | none => exact ⟨fun _ => abs_nonneg _, fun hd => by simp at hd⟩
        | some pb =>
          by_cases hb : l.balance - pb > 0
          · simp only [hb, if_true, reduceIte]
            exact ⟨fun _ => abs_nonneg _, fun hd => by simp at hd⟩
          · simp only [hb, if_false, reduceIte]
            exact ⟨fun hc => by simp at hc, fun _ => neg_nonpos.mpr (abs_nonneg _)⟩
      · exact ih _ t h

theorem biCheckingExtract_sign (isSpouse : Bool) (pages : List (List (Option BICheckLine))) :
    ∀ t ∈ biCheckingExtract isSpouse pages,
      (t.transactionType = TransType.credit → 0 ≤ t.amount) ∧
      (t.transactionType = TransType.debit → t.amount ≤ 0) := by
  intro t ht
  rcases List.mem_flatten.mp ht with ⟨page, hpage, htp⟩
  rcases List.mem_map.mp hpage with ⟨lines, _, rfl⟩
  exact biCheckingStep_sign isSpouse none lines t htp

theorem parseTransactionRow_amount_nonneg (row : CSVRow) (year : Nat) (t : Transaction)
    (h : parseTransactionRow row year = some t) : 0 ≤ t.amount := by
  simp only [parseTransactionRow] at h
  repeat' split at h
  all_goals try exact Option.noConfusion h
  injection h with h
  subst h
  exact abs_nonneg _

theorem parseTransactionRow_type (row : CSVRow) (year : Nat) (t : Transaction)
    (h : parseTransactionRow row year = some t) :
    t.transactionType = ttCodeToType (strToUpper (strTrim row.tt)) := by
  simp only [parseTransactionRow] at h
  repeat' split at h
  all_goals try exact Option.noConfusion h
  injection h with h
  subst h
  rfl

theorem parseTransactionRow_amount_source (row : CSVRow) (year : Nat) (t : Transaction)
    (h : parseTransactionRow row year = some t) :
    some t.amount = (rowAmount (strTrim row.debe) (strTrim row.haber)).map (fun q => |q|) := by
  simp only [parseTransactionRow] at h
  repeat' split at h
  all_goals try exact Option.noConfusion h
  rename_i amountRaw heq
  injection h with h
  subst h
  rw [heq]
  rfl

theorem parseTransactionRow_no_amount (row : CSVRow) (year : Nat)
    (hd : cellUsable (strTrim row.debe) = false) (hh : cellUsable (strTrim row.haber) = false) :
    parseTransactionRow row year = none := by
  have hnone : rowAmount (strTrim row.debe) (strTrim row.haber) = none := by
    simp [rowAmount, hd, hh]
  simp only [parseTransactionRow, hnone]
  repeat' split
  all_goals rfl

theorem biCheckingStep_types (isSpouse : Bool) (prev : Option ℚ)
    (lines : List (Option BICheckLine)) :
    (biCheckingStep isSpouse prev lines).map Transaction.transactionType =
      balanceDiffTypes prev ((lines.filterMap id).map BICheckLine.balance) := by
  induction lines generalizing prev with
  | nil => cases prev <;> rfl
  | cons hd rest ih =>
    cases hd with
    | none => simpa [biCheckingStep] using ih prev
    | some l =>
      cases prev with
      | none => simp [biCheckingStep, balanceDiffTypes, ih]
      | some pb =>
        by_cases hb : l.balance - pb > 0 <;>
          simp [biCheckingStep, balanceDiffTypes, hb, ih]

theorem biUSDStep_types (isSpouse : Bool) (prev : Option ℚ)
    (lines : List (Option BIUSDLine)) :
    (biUSDStep isSpouse prev lines).map Transaction.transactionType =
      balanceDiffTypes prev (((lines.filterMap id).map BIUSDLine.balance).map (fun b => b * (39/5))) := by
  induction lines generalizing prev with
  | nil => cases prev <;> rfl
  | cons hd rest ih =>
    cases hd with
    | none => simpa [biUSDStep] using ih prev
    | some l =>
      cases prev with
      | none => simp [biUSDStep, balanceDiffTypes, ih]
      | some pb =>
        by_cases hb : l.balance * (39/5) - pb > 0 <;>
          simp [biUSDStep, balanceDiffTypes, hb, ih]

theorem balanceDiffTypes_scale (c : ℚ) (hc : 0 < c) (prev : Option ℚ) (bs : List ℚ) :
    balanceDiffTypes (prev.map (fun b => b * c)) (bs.map (fun b => b * c)) =
      balanceDiffTypes prev bs := by
  induction bs generalizing prev with
  | nil => cases prev <;> rfl
  | cons b rest ih =>
    cases prev with
    | none =>
      simpa [balanceDiffTypes] using ih (some b)
    | some pb =>
      have hiff : b * c - pb * c > 0 ↔ b - pb > 0 := by
        constructor <;> intro h <;> nlinarith
      by_cases hb : b - pb > 0
      · simpa [balanceDiffTypes, hb, hiff.mpr hb] using ih (some b)
      · have : ¬(b * c - pb * c > 0) := fun hcon => hb (hiff.mp hcon)
        simpa [balanceDiffTypes, hb, this] using ih (some b)

/-! ## BAMCreditParser (separate debit/credit amount columns, OCR text) -/

/-- One matched line of the BAM credit grammar:
`FechaConsumo FechaCobro Description [Q|$].Debit [[Q|$].Credit]` — the
credit group is optional (`none` becomes the string `"0.00"`), and the
amount groups are kept as their raw strings because the source compares
them to `"0.00"` textually before parsing. -/
structure BAMLine where
  consDate : Date
  chargeDate : String
  description : String
  currencySymbol : String
  debitStr : String
  creditStr : Option String
deriving DecidableEq, Repr

/-- Per-line body of `BAMCreditParser._parse_page_text` after a grammar
match: subtotal descriptions are skipped, the credit column wins when its
string is not `"0.00"`, otherwise the debit column, otherwise the line is
skipped; on both branches the stored amount is
`abs(value * 7.8 if USD else value)` — non-negative for debits too. -/
def bamParseLine (l : BAMLine) : Option Transaction :=
  let creditStr := l.creditStr.getD "0.00"
  if charsContain "****SUBTOTAL".data l.description.data then none
  else
    let description := strTrim l.description
    let originalCurrency := if l.currencySymbol = "$" then "USD" else "GTQ"
    if creditStr ≠ "0.00" then
      match parseFloat (strRemoveChar ',' creditStr) with
      | some originalValue =>
        some { date := l.consDate
               description := description
               originalDescription := description
               amount := |if originalCurrency = "USD" then originalValue * (39/5) else originalValue|
               transactionType := TransType.credit
               category := ""
               accountName := "BAM Credit Card"
               originalValue := some originalValue
               originalCurrency := some originalCurrency }
      | none => none
    else if l.debitStr ≠ "0.00" then
      match parseFloat (strRemoveChar ',' l.debitStr) with
      | some originalValue =>
        some { date := l.consDate
               description := description
               originalDescription := description
               amount := |if originalCurrency = "USD" then originalValue * (39/5) else originalValue|
               transactionType := TransType.debit
               category := ""
               accountName := "BAM Credit Card"
               originalValue := some originalValue
               originalCurrency := some originalCurrency }
      | none => none
    else none

/-- Method `BAMCreditParser._parse_page_text` over the matched lines (a
matched line may still be skipped by `bamParseLine`). -/
def bamParsePage (lines : List (Option BAMLine)) : List Transaction :=
  lines.filterMap (fun o => o.bind bamParseLine)

/-! # Claim C1 -/

/-- Two matched checking-parser lines whose balance drops: the second
transaction is a debit. -/
def c1Lines : List (Option BICheckLine) :=
  [some { date := ⟨2024, 1, 15⟩, reference := "123456", description := "DEPOSITO",
          amount := 500, balance := 2000 },
   some { date := ⟨2024, 1, 16⟩, reference := "123457", description := "PAGO",
          amount := 1500, balance := 500 }]

/-- C1 counterexample: the claim says every extractor's `Amount` is
non-negative, but `BancoIndustrialCheckingParser` stores
`amount = -abs(amount_value)` on the debit branch: the second transaction
of `c1Lines` carries `Amount = -1500 < 0`. -/
theorem C1_counterexample :
    (biCheckingParsePage false c1Lines).map Transaction.amount = [500, -1500] ∧
      ¬ (0 : ℚ) ≤ -1500 := by
  constructor
  · norm_num [c1Lines, biCheckingParsePage, biCheckingStep]
  · norm_num

theorem biUSDStep_sign (isSpouse : Bool) (prev : Option ℚ)
    (lines : List (Option BIUSDLine)) :
    ∀ t ∈ biUSDStep isSpouse prev lines,
      (t.transactionType = TransType.credit → 0 ≤ t.amount) ∧
      (t.transactionType = TransType.debit → t.amount ≤ 0) := by
  induction lines generalizing prev with
  | nil => intro t ht; simp [biUSDStep] at ht
  | cons hd rest ih =>
    cases hd with
    | none =>
      intro t ht
      simp only [biUSDStep] at ht
      exact ih prev t ht
    | some l =>
      intro t ht
      simp only [biUSDStep] at ht
      rcases List.mem_cons.mp ht with h | h
      · subst h
        cases prev with
        | none => exact ⟨fun _ => abs_nonneg _, fun hd => by simp at hd⟩
        | some pb =>
          by_cases hb : l.balance * (39/5) - pb > 0
          · simp only [hb, if_true, reduceIte]
            exact ⟨fun _ => abs_nonneg _, fun hd => by simp at hd⟩
          · simp only [hb, if_false, reduceIte]
            exact ⟨fun hc => by simp at hc, fun _ => neg_nonpos.mpr (abs_nonneg _)⟩
      · exact ih _ t h

theorem biCreditParsePage_sign (isSpouse : Bool) (lines : List (Option BICreditLine))
    (hnn : ∀ l, some l ∈ lines → 0 ≤ l.amount) :
    ∀ t ∈ (biCreditParsePage isSpouse lines).1,
      (t.transactionType = TransType.credit → 0 ≤ t.amount) ∧
      (t.transactionType = TransType.debit → t.amount ≤ 0) := by
  induction lines with
  | nil => intro t ht; simp [biCreditParsePage] at ht
  | cons hd rest ih =>
    have hrest : ∀ l, some l ∈ rest → 0 ≤ l.amount :=
      fun l hl => hnn l (List.mem_cons_of_mem _ hl)
    cases hd with
    | none =>
      intro t ht
      simp only [biCreditParsePage] at ht
      exact ih hrest t ht
    | some l =>
      have hl : (0 : ℚ) ≤ l.amount := hnn l (List.mem_cons_self _ _)
      have hconv : (0 : ℚ) ≤ l.amount * (39/5) := mul_nonneg hl (by norm_num)
      intro t ht
      by_cases hdeb : strTrim l.transType ∈ DEBIT_TYPES
      · simp only [biCreditParsePage, if_pos hdeb, List.mem_cons] at ht
        rcases ht with h | h
        · subst h
          exact ⟨fun hc => by simp [biCreditMkTransaction] at hc,
            fun _ => by simpa [biCreditMkTransaction] using neg_nonpos.mpr hconv⟩
        · exact ih hrest t h
      · by_cases hcred : strTrim l.transType ∈ CREDIT_TYPES
        · simp only [biCreditParsePage, if_neg hdeb, if_pos hcred, List.mem_cons] at ht
          rcases ht with h | h
          · subst h
            exact ⟨fun _ => by simpa [biCreditMkTransaction] using hconv,
              fun hd => by simp [biCreditMkTransaction] at hd⟩
          · exact ih hrest t h
        · simp only [biCreditParsePage, if_neg hdeb, if_neg hcred] at ht
          exact ih hrest t ht

theorem bamParseLine_amount_nonneg (l : BAMLine) (t : Transaction)
    (h : bamParseLine l = some t) : 0 ≤ t.amount := by
  simp only [bamParseLine] at h
  repeat' split at h
  all_goals try exact Option.noConfusion h
  all_goals (injection h with h; subst h; exact abs_nonneg _)

/-- C1 (amended): the CSV extractor and the BAM credit extractor always
emit non-negative amounts (both take an absolute value before storing);
the remaining extractors correlate the sign of `Amount` with the
direction instead — a credit's amount is `≥ 0` and a debit's amount is
`≤ 0` (the GTQ and USD checking parsers store `-abs(amount)` for debits,
the plain BI parser stores `-debit`, and the BI credit USD parser negates
the converted amount for debit codes) — so for those extractors the
direction is carried by the sign of `Amount` in addition to
`Transaction Type`. -/
theorem C1_main :
    (∀ (isSpouse : Bool) (pages : List (List (Option BICheckLine))),
       ∀ t ∈ biCheckingExtract isSpouse pages,
         (t.transactionType = TransType.credit → 0 ≤ t.amount) ∧
         (t.transactionType = TransType.debit → t.amount ≤ 0)) ∧
    (∀ (isSpouse : Bool) (lines : List (Option BIUSDLine)),
       ∀ t ∈ biUSDParsePage isSpouse lines,
         (t.transactionType = TransType.credit → 0 ≤ t.amount) ∧
         (t.transactionType = TransType.debit → t.amount ≤ 0)) ∧
    (∀ l : BIPlainLine, 0 ≤ l.debit.getD 0 →
       (biPlainParseLine l).transactionType = TransType.debit →
         (biPlainParseLine l).amount ≤ 0) ∧
    (∀ (isSpouse : Bool) (lines : List (Option BICreditLine)),
       (∀ l, some l ∈ lines → 0 ≤ l.amount) →
       ∀ t ∈ (biCreditParsePage isSpouse lines).1,
         (t.transactionType = TransType.credit → 0 ≤ t.amount) ∧
         (t.transactionType = TransType.debit → t.amount ≤ 0)) ∧
    (∀ (row : CSVRow) (year : Nat) (t : Transaction),
       parseTransactionRow row year = some t → 0 ≤ t.amount) ∧
    (∀ (l : BAMLine) (t : Transaction), bamParseLine l = some t → 0 ≤ t.amount) := by
  refine ⟨biCheckingExtract_sign, fun sp lines => biUSDStep_sign sp none lines, ?_,
    biCreditParsePage_sign, parseTransactionRow_amount_nonneg, bamParseLine_amount_nonneg⟩
  intro l hl htype
  by_cases hz : l.debit.getD 0 ≠ 0
  · simp only [biPlainParseLine, if_pos hz]
    simpa using neg_nonpos.mpr hl
  · exfalso
    simp [biPlainParseLine, hz] at htype

/-- Single-line page for the C1 witness (a credit). -/
def c1wPages : List (List (Option BICheckLine)) :=
  [[some { date := ⟨2024, 1, 15⟩, reference := "1", description := "DEP",
           amount := 500, balance := 2000 }]]

/-- A plain-parser line with a non-empty debit column. -/
def c1wPlainLine : BIPlainLine :=
  { date := ⟨2024, 1, 15⟩, docNum := "1", description := "X",
    debit := some 30, credit := none, balance := 100 }

/-- A CSV row with an empty `Debe` and a usable `Haber`. -/
def c1wRow : CSVRow :=
  { fecha := "01-10", tt := "NC", descripcion := "DEPOSITO", debe := "", haber := "1500.00" }

/-- A one-line page for the USD checking parser. -/
def c1wUSDLines : List (Option BIUSDLine) :=
  [some { date := ⟨2024, 1, 17⟩, reference := none, description := "ABONO",
          amount := 20, balance := 100 }]

/-- A one-line credit-card page with the debit code `CONSUMO`. -/
def c1wCreditLines : List (Option BICreditLine) :=
  [some { date := ⟨2024, 1, 18⟩, transType := "CONSUMO", docNum := "7",
          establishment := "STORE", amount := 10 }]

/-- A BAM line with only the debit column filled. -/
def c1wBAMLine : BAMLine :=
  { consDate := ⟨2024, 1, 19⟩, chargeDate := "20/01/2024", description := "CAFE",
    currencySymbol := "Q", debitStr := "15.00", creditStr := none }

/-- C1 witness: the amended theorem instantiated on concrete inputs from
all six extractors. -/
theorem C1_witness :
    0 ≤ (biCheckingExtract false c1wPages).head!.amount ∧
    0 ≤ (biUSDParsePage false c1wUSDLines).head!.amount ∧
    (biPlainParseLine c1wPlainLine).amount ≤ 0 ∧
    (biCreditParsePage false c1wCreditLines).1.head!.amount ≤ 0 ∧
    0 ≤ ((parseTransactionRow c1wRow 2025).get (by rfl)).amount ∧
    0 ≤ ((bamParseLine c1wBAMLine).get (by rfl)).amount :=
  ⟨(C1_main.1 false c1wPages _ (List.head!_mem_self (by decide))).1 (by rfl),
   (C1_main.2.1 false c1wUSDLines _ (List.head!_mem_self (by decide))).1 (by rfl),
   C1_main.2.2.1 c1wPlainLine (by norm_num [c1wPlainLine])
     (by norm_num [biPlainParseLine, c1wPlainLine]),
   (C1_main.2.2.2.1 false c1wCreditLines
       (by intro l hl; simp [c1wCreditLines] at hl; subst hl; norm_num)
       _ (List.head!_mem_self (by decide))).2 (by rfl),
   C1_main.2.2.2.2.1 c1wRow 2025 _ (Option.some_get _).symm,
   C1_main.2.2.2.2.2 c1wBAMLine _ (Option.some_get _).symm⟩

/-! # Claim C2 -/

theorem mem_insertStr (u s : String) (l : List String) :
    u ∈ insertStr s l ↔ u = s ∨ u ∈ l := by
  induction l with
  | nil => simp [insertStr]
  | cons x xs ih =>
    by_cases hx : x < s
    · simp only [insertStr, if_pos hx, List.mem_cons, ih]
      tauto
    · simp only [insertStr, if_neg hx, List.mem_cons]

theorem mem_sortStrs (u : String) (l : List String) : u ∈ sortStrs l ↔ u ∈ l := by
  induction l with
  | nil => simp [sortStrs]
  | cons x xs ih =>
    simp only [sortStrs, List.foldr_cons] at *
    rw [mem_insertStr]
    simp [ih]

theorem mem_biCreditParsePage_snd (isSpouse : Bool) (u : String)
    (lines : List (Option BICreditLine)) :
    u ∈ (biCreditParsePage isSpouse lines).2 ↔
      ∃ l, some l ∈ lines ∧ strTrim l.transType = u ∧
        u ∉ DEBIT_TYPES ∧ u ∉ CREDIT_TYPES := by
  induction lines with
  | nil => simp [biCreditParsePage]
  | cons hd rest ih =>
    cases hd with
    | none =>
      simp only [biCreditParsePage, ih]
      constructor
      · rintro ⟨l, hl, rest'⟩
        exact ⟨l, List.mem_cons_of_mem _ hl, rest'⟩
      · rintro ⟨l, hl, rest'⟩
        rcases List.mem_cons.mp hl with h | h
        · exact absurd h (by simp)
        · exact ⟨l, h, rest'⟩
    | some hline =>
      by_cases hdeb : strTrim hline.transType ∈ DEBIT_TYPES
      · simp only [biCreditParsePage, if_pos hdeb, ih]
        constructor
        · rintro ⟨l, hl, rest'⟩
          exact ⟨l, List.mem_cons_of_mem _ hl, rest'⟩
        · rintro ⟨l, hl, ht, hnd, hnc⟩
          rcases List.mem_cons.mp hl with h | h
          · rw [Option.some.injEq] at h
            subst h
            exact absurd (ht ▸ hdeb) hnd
          · exact ⟨l, h, ht, hnd, hnc⟩
      · by_cases hcred : strTrim hline.transType ∈ CREDIT_TYPES
        · simp only [biCreditParsePage, if_neg hdeb, if_pos hcred, ih]
          constructor
          · rintro ⟨l, hl, rest'⟩
            exact ⟨l, List.mem_cons_of_mem _ hl, rest'⟩
          · rintro ⟨l, hl, ht, hnd, hnc⟩
            rcases List.mem_cons.mp hl with h | h
            · rw [Option.some.injEq] at h
              subst h
              exact absurd (ht ▸ hcred) hnc
            · exact ⟨l, h, ht, hnd, hnc⟩
        · simp only [biCreditParsePage, if_neg hdeb, if_neg hcred, List.mem_cons, ih]
          constructor
          · rintro (h | ⟨l, hl, rest'⟩)
            · subst h
              exact ⟨hline, Or.inl rfl, rfl, hdeb, hcred⟩
            · exact ⟨l, Or.inr hl, rest'⟩
          · rintro ⟨l, hl, ht, hnd, hnc⟩
            rcases hl with h | h
            · rw [Option.some.injEq] at h
              subst h
              exact Or.inl ht.symm
            · exact Or.inr ⟨l, h, ht, hnd, hnc⟩

theorem mem_biCreditUnknowns (isSpouse : Bool) (u : String)
    (pages : List (List (Option BICreditLine))) :
    u ∈ biCreditUnknowns isSpouse pages ↔
      ∃ page ∈ pages, ∃ l, some l ∈ page ∧ strTrim l.transType = u ∧
        u ∉ DEBIT_TYPES ∧ u ∉ CREDIT_TYPES := by
  simp only [biCreditUnknowns, List.mem_flatten, List.mem_map]
  constructor
  · rintro ⟨s, ⟨⟨ts, us⟩, ⟨page, hpage, hparse⟩, hsnd⟩, hu⟩
    refine ⟨page, hpage, ?_⟩
    rw [← mem_biCreditParsePage_snd isSpouse u page]
    subst hsnd
    rw [hparse]
    exact hu
  · rintro ⟨page, hpage, hex⟩
    exact ⟨(biCreditParsePage isSpouse page).2,
      ⟨biCreditParsePage isSpouse page, ⟨page, hpage, rfl⟩, rfl⟩,
      (mem_biCreditParsePage_snd isSpouse u page).mpr hex⟩

/-- A CSV row whose `TT` code `XX` is not in the lookup table. -/
def c2Row : CSVRow :=
  { fecha := "02-10", tt := "XX", descripcion := "MISC", debe := "50.00", haber := "" }

/-- C2 counterexample: the claim says every extractor with explicit type
codes (CSV included) fails on an unknown code.  The CSV extractor instead
returns a transaction list: the unknown code `XX` is mapped to `debit`
and the single row still yields a transaction. -/
theorem C2_counterexample :
    (biCSVParseRows [c2Row] 2025).length = 1 ∧
    ((biCSVParseRows [c2Row] 2025).head!.transactionType = TransType.debit) ∧
    strToUpper (strTrim c2Row.tt) ∉ (["NC", "DE", "ND", "CQ"] : List String) := by
  refine ⟨by rfl, by rfl, by decide⟩

/-- C2 (amended): the credit-card extractor hard-stops as claimed — if
any page contains a line with an unknown stripped type code, extraction
returns an error listing exactly the unknown codes and no transaction
list — but the CSV extractor does not: a row whose `TT` code is outside
the lookup table is mapped to `debit` and extraction continues. -/
theorem C2_main :
    (∀ (isSpouse : Bool) (pages : List (List (Option BICreditLine))) (c : String),
       c ∈ biCreditUnknowns isSpouse pages →
       biCreditExtract isSpouse pages =
           Except.error (sortStrs (biCreditUnknowns isSpouse pages).dedup) ∧
         (∀ u, u ∈ sortStrs (biCreditUnknowns isSpouse pages).dedup ↔
            ∃ page ∈ pages, ∃ l, some l ∈ page ∧ strTrim l.transType = u ∧
              u ∉ DEBIT_TYPES ∧ u ∉ CREDIT_TYPES)) ∧
    (∀ (row : CSVRow) (year : Nat) (t : Transaction),
       parseTransactionRow row year = some t →
       strToUpper (strTrim row.tt) ∉ (["NC", "DE", "ND", "CQ"] : List String) →
       t.transactionType = TransType.debit) := by
  constructor
  · intro isSpouse pages c hc
    have hne : (biCreditUnknowns isSpouse pages).isEmpty = false := by
      cases h : biCreditUnknowns isSpouse pages with
      | nil => rw [h] at hc; exact absurd hc (by simp)
      | cons a l => rfl
    refine ⟨by simp [biCreditExtract, hne], ?_⟩
    intro u
    rw [mem_sortStrs, List.mem_dedup, mem_biCreditUnknowns]
  · intro row year t h hnot
    rw [parseTransactionRow_type row year t h]
    have h1 : ¬(strToUpper (strTrim row.tt) = "NC" ∨ strToUpper (strTrim row.tt) = "DE") := by
      rintro (h | h) <;> simp [h] at hnot
    rw [ttCodeToType, if_neg h1]
    split <;> rfl

/-- A one-page credit-card document containing an unknown type code. -/
def c2wPages : List (List (Option BICreditLine)) :=
  [[some { date := ⟨2024, 2, 1⟩, transType := "MISTERIO", docNum := "1",
           establishment := "SHOP", amount := 10 }]]

/-- C2 witness: the amended theorem instantiated on a concrete
credit-card page with the unknown code `MISTERIO` and on the CSV row with
the unknown code `XX`. -/
theorem C2_witness :
    biCreditExtract false c2wPages =
        Except.error (sortStrs (biCreditUnknowns false c2wPages).dedup) ∧
    ((parseTransactionRow c2Row 2025).get (by rfl)).transactionType = TransType.debit :=
  ⟨(C2_main.1 false c2wPages "MISTERIO" (by decide)).1,
   C2_main.2 c2Row 2025 _ (Option.some_get _).symm (by decide)⟩

/-! # Claim C3 -/

/-- First page for the C3 counterexample: one parsed line, balance 1000. -/
def c3Page1 : List (Option BICheckLine) :=
  [some { date := ⟨2024, 3, 1⟩, reference := "1", description := "A",
          amount := 100, balance := 1000 }]

/-- Second page: one parsed line, balance 500 (a drop). -/
def c3Page2 : List (Option BICheckLine) :=
  [some { date := ⟨2024, 3, 2⟩, reference := "2", description := "B",
          amount := 500, balance := 500 }]

/-- C3 counterexample: the claim threads `previous_balance` across the
whole document, so the document's second parsed line (balance 500 after
1000, a negative change) should be a debit; the parser, however, calls
`_parse_page_text` per page with a fresh `previous_balance = None`, and
the first line of the second page is defaulted to credit. -/
theorem C3_counterexample :
    (biCheckingExtract false [c3Page1, c3Page2]).map Transaction.transactionType =
        [TransType.credit, TransType.credit] ∧
      ¬ ((500 : ℚ) - 1000 > 0) := by
  constructor
  · norm_num [biCheckingExtract, biCheckingParsePage, biCheckingStep, c3Page1, c3Page2]
  · norm_num

/-- C3 (amended): within a single page, both balance-diff extractors
realise exactly the spec's rule — the first parsed line is defaulted to
credit, and each later parsed line is credit precisely when its balance
exceeds the previous parsed line's balance (`balanceDiffTypes`); the
threading is per page, since `extract_data` re-enters `_parse_page_text`
with a fresh `previous_balance` for every page. -/
theorem C3_main :
    (∀ (isSpouse : Bool) (lines : List (Option BICheckLine)),
       (biCheckingParsePage isSpouse lines).map Transaction.transactionType =
         balanceDiffTypes none ((lines.filterMap id).map BICheckLine.balance)) ∧
    (∀ (isSpouse : Bool) (lines : List (Option BIUSDLine)),
       (biUSDParsePage isSpouse lines).map Transaction.transactionType =
         balanceDiffTypes none ((lines.filterMap id).map BIUSDLine.balance)) ∧
    (∀ (isSpouse : Bool) (pages : List (List (Option BICheckLine))),
       biCheckingExtract isSpouse pages =
         (pages.map (fun page => biCheckingParsePage isSpouse page)).flatten) := by
  refine ⟨fun sp lines => biCheckingStep_types sp none lines, ?_, fun _ _ => rfl⟩
  intro sp lines
  rw [biUSDParsePage, biUSDStep_types sp none lines]
  have h := balanceDiffTypes_scale (39/5) (by norm_num) none
    ((lines.filterMap id).map BIUSDLine.balance)
  simpa using h

/-! # Claim C4 -/

theorem viewsApplyPatterns_manual (research : RegexEngine) (desc : String)
    (t : DBTransaction) (ps : List Pattern) :
    (viewsApplyPatterns research desc t ps).manuallyCategorized = t.manuallyCategorized := by
  induction ps with
  | nil => rfl
  | cons p ps ih =>
    by_cases h : viewsMatchFound research desc p <;> simp [viewsApplyPatterns, h, ih]

/-- A category pattern that matches `c4Tx`'s description. -/
def c4Pattern : Pattern :=
  { pattern := "uber", matchType := MatchType.contains, confidence := 1,
    isActive := true, category := "Transport" }

/-- A manually categorized transaction. -/
def c4Tx : DBTransaction :=
  { description := "UBER TRIP", category := some "Food", categoryConfidence := 1,
    manuallyCategorized := true }

/-- A regex engine (irrelevant here: the pattern is a `contains` one). -/
def c4Research : RegexEngine := fun _ _ => Except.ok false

/-- C4 counterexample: the claim says auto-classification never
re-evaluates nor overwrites a manually categorized transaction, but the
`views.py` implementation has no `manually_categorized` check: invoked on
the flagged transaction `c4Tx` it overwrites the manual category `Food`
with the pattern's `Transport`. -/
theorem C4_counterexample :
    c4Tx.manuallyCategorized = true ∧
    c4Tx.category = some "Food" ∧
    (autoCategorizeViews c4Research [c4Pattern] c4Tx).category = some "Transport" := by
  refine ⟨rfl, rfl, by decide⟩

/-- C4 (amended): the script implementation enforces the latch — a
manually categorized transaction is returned unchanged with no rule
evaluated — while the views implementation performs no latch check
(although it never alters the `manually_categorized` flag itself, and its
only in-repo caller runs it on freshly created transactions whose flag is
false). -/
theorem C4_main :
    (∀ (researchIC : RegexEngine) (patterns : List Pattern) (t : DBTransaction),
       t.manuallyCategorized = true →
       autoCategorizeScript researchIC patterns t = (t, false)) ∧
    (∀ (research : RegexEngine) (patterns : List Pattern) (t : DBTransaction),
       (autoCategorizeViews research patterns t).manuallyCategorized =
         t.manuallyCategorized) := by
  constructor
  · intro r ps t h
    simp [autoCategorizeScript, h]
  · intro r ps t
    exact viewsApplyPatterns_manual r (strToLower t.description) t _

/-- C4 witness: the amended theorem instantiated on the concrete flagged
transaction. -/
theorem C4_witness :
    autoCategorizeScript c4Research [c4Pattern] c4Tx = (c4Tx, false) :=
  C4_main.1 c4Research [c4Pattern] c4Tx rfl

/-! # Claim C5 -/

/-- C5: the views classifier filters to active rules, sorts by
confidence descending and takes the first match: for two active
`contains` rules that both match, the higher-confidence one wins
regardless of the order the rules are supplied in, and the result is the
same for both presentation orders. -/
theorem C5_main :
    ∀ (research : RegexEngine) (t : DBTransaction) (a b : Pattern),
      a.isActive = true → b.isActive = true →
      a.matchType = MatchType.contains → b.matchType = MatchType.contains →
      b.confidence < a.confidence →
      charsContain (strToLower a.pattern).data (strToLower t.description).data = true →
      charsContain (strToLower b.pattern).data (strToLower t.description).data = true →
      autoCategorizeViews research [a, b] t = autoCategorizeViews research [b, a] t ∧
      (autoCategorizeViews research [a, b] t).category = some a.category ∧
      (autoCategorizeViews research [a, b] t).categoryConfidence = a.confidence := by
  intro research t a b ha hb hma hmb hconf hmatcha _
  have hnl : ¬(a.confidence < b.confidence) := not_lt.mpr (le_of_lt hconf)
  have hsort1 : sortByConfDesc ([a, b].filter (·.isActive)) = [a, b] := by
    simp [List.filter, ha, hb, sortByConfDesc, insertByConf, hnl]
  have hsort2 : sortByConfDesc ([b, a].filter (·.isActive)) = [a, b] := by
    simp [List.filter, ha, hb, sortByConfDesc, insertByConf, hconf]
  have hm : viewsMatchFound research (strToLower t.description) a = true := by
    simp [viewsMatchFound, hma, hmatcha]
  have happly : viewsApplyPatterns research (strToLower t.description) t [a, b] =
      { t with category := some a.category, categoryConfidence := a.confidence } := by
    simp [viewsApplyPatterns, hm]
  rw [autoCategorizeViews, autoCategorizeViews, hsort1, hsort2, happly]
  exact ⟨rfl, rfl, rfl⟩

/-- The spec's own example rule pair: `la torre → Supermarket` at 0.95. -/
def c5A : Pattern :=
  { pattern := "la torre", matchType := MatchType.contains, confidence := 95/100,
    isActive := true, category := "Supermarket" }

/-- Rule `supermercado → Food` at 0.5. -/
def c5B : Pattern :=
  { pattern := "supermercado", matchType := MatchType.contains, confidence := 5/10,
    isActive := true, category := "Food" }

/-- The spec's example description. -/
def c5Tx : DBTransaction :=
  { description := "SUPERMERCADO LA TORRE #4", category := none,
    categoryConfidence := 0, manuallyCategorized := false }

/-- A regex engine (irrelevant: both rules are `contains`). -/
def c5Research : RegexEngine := fun _ _ => Except.ok false

/-- C5 witness: the theorem on the spec's own end-to-end example. -/
theorem C5_witness :
    autoCategorizeViews c5Research [c5A, c5B] c5Tx =
        autoCategorizeViews c5Research [c5B, c5A] c5Tx ∧
    (autoCategorizeViews c5Research [c5A, c5B] c5Tx).category = some "Supermarket" ∧
    (autoCategorizeViews c5Research [c5A, c5B] c5Tx).categoryConfidence = (95/100 : ℚ) :=
  C5_main c5Research c5Tx c5A c5B rfl rfl rfl rfl (by norm_num [c5A, c5B])
    (by decide) (by decide)

/-! # Claim C6 -/

/-- A regex engine that searches its pattern as a literal substring,
case-sensitively (the semantics `re.search` has on the letter-only
pattern used below). -/
def c6Research : RegexEngine := fun pat s => Except.ok (charsContain pat.data s.data)

/-- An active regex rule with an upper-case pattern. -/
def c6Pattern : Pattern :=
  { pattern := "HELLO", matchType := MatchType.regex, confidence := 1,
    isActive := true, category := "Greeting" }

/-- A lower-case description. -/
def c6Tx : DBTransaction :=
  { description := "hello there", category := none, categoryConfidence := 0,
    manuallyCategorized := false }

/-- C6 counterexample: a search against the original-case description
(as the claim states) finds nothing — `c6Research "HELLO" "hello there"`
is `ok false` — yet the views implementation lowercases both pattern and
description before searching and assigns the category. -/
theorem C6_counterexample :
    c6Research c6Pattern.pattern c6Tx.description = Except.ok false ∧
    (autoCategorizeViews c6Research [c6Pattern] c6Tx).category = some "Greeting" := by
  exact ⟨by rfl, by decide⟩

/-- C6 (amended): a malformed regex (`Except.error`) is a non-match for
that single rule only, with the remaining rules still evaluated; a regex
rule in the views implementation matches according to a search of the
lowercased pattern against the lowercased description, while the script
implementation searches the original-case pattern against the
original-case description under a case-insensitive engine. -/
theorem C6_main :
    (∀ (research : RegexEngine) (desc : String) (t : DBTransaction) (bad : Pattern)
       (ps : List Pattern),
       bad.matchType = MatchType.regex →
       research (strToLower bad.pattern) desc = Except.error () →
       viewsApplyPatterns research desc t (bad :: ps) =
         viewsApplyPatterns research desc t ps) ∧
    (∀ (research : RegexEngine) (t : DBTransaction) (p : Pattern),
       p.isActive = true → p.matchType = MatchType.regex →
       autoCategorizeViews research [p] t =
         (match research (strToLower p.pattern) (strToLower t.description) with
          | Except.ok true =>
            { t with category := some p.category, categoryConfidence := p.confidence }
          | _ => t)) ∧
    (∀ (researchIC : RegexEngine) (t : DBTransaction) (p : Pattern),
       t.manuallyCategorized = false → p.isActive = true → p.matchType = MatchType.regex →
       autoCategorizeScript researchIC [p] t =
         (match researchIC p.pattern t.description with
          | Except.ok true =>
            ({ t with category := some p.category, categoryConfidence := p.confidence }, true)
          | _ => (t, false))) := by
  refine ⟨?_, ?_, ?_⟩
  · intro research desc t bad ps hm he
    have hfalse : viewsMatchFound research desc bad = false := by
      simp [viewsMatchFound, hm, he]
    simp [viewsApplyPatterns, hfalse]
  · intro research t p hact hm
    have hsort : sortByConfDesc ([p].filter (·.isActive)) = [p] := by
      simp [List.filter, hact, sortByConfDesc, insertByConf]
    rw [autoCategorizeViews, hsort]
    cases hr : research (strToLower p.pattern) (strToLower t.description) with
    | ok b =>
      cases b <;> simp [viewsApplyPatterns, viewsMatchFound, hm, hr]
    | error e =>
      cases e
      simp [viewsApplyPatterns, viewsMatchFound, hm, hr]
  · intro researchIC t p hman hact hm
    have hsort : sortByConfDesc ([p].filter (·.isActive)) = [p] := by
      simp [List.filter, hact, sortByConfDesc, insertByConf]
    rw [autoCategorizeScript, if_neg (by simp [hman])]
    rw [hsort]
    cases hr : researchIC p.pattern t.description with
    | ok b =>
      cases b <;> simp [scriptApplyPatterns, scriptMatched, hm, hr]
    | error e =>
      cases e
      simp [scriptApplyPatterns, scriptMatched, hm, hr]

/-- A regex engine that always raises, modelling a malformed pattern. -/
def c6BadResearch : RegexEngine := fun _ _ => Except.error ()

/-- An active regex rule whose (malformed) pattern always raises. -/
def c6Bad : Pattern :=
  { pattern := "(", matchType := MatchType.regex, confidence := 1,
    isActive := true, category := "X" }

/-- A case-insensitive literal-substring engine, modelling
`re.search(..., re.IGNORECASE)` on a letter-only pattern. -/
def c6ResearchIC : RegexEngine :=
  fun pat s => Except.ok (charsContain (strToLower pat).data (strToLower s).data)

/-- C6 witness: the amended theorem instantiated on concrete rules — the
malformed rule is skipped leaving the transaction untouched, the views
regex rule fires on the case-mismatched description, and the script
regex rule fires under the case-insensitive engine. -/
theorem C6_witness :
    viewsApplyPatterns c6BadResearch "abc" c6Tx [c6Bad] = c6Tx ∧
    autoCategorizeViews c6Research [c6Pattern] c6Tx =
      { c6Tx with category := some "Greeting", categoryConfidence := 1 } ∧
    autoCategorizeScript c6ResearchIC [c6Pattern] c6Tx =
      ({ c6Tx with category := some "Greeting", categoryConfidence := 1 }, true) :=
  ⟨C6_main.1 c6BadResearch "abc" c6Tx c6Bad [] rfl rfl,
   C6_main.2.1 c6Research c6Tx c6Pattern rfl rfl,
   C6_main.2.2 c6ResearchIC c6Tx c6Pattern rfl rfl rfl⟩

/-! # Claim C7 -/

theorem biUSDStep_currency (isSpouse : Bool) (prev : Option ℚ)
    (lines : List (Option BIUSDLine)) :
    ∀ t ∈ biUSDStep isSpouse prev lines,
      t.originalCurrency = some "USD" ∧
      ∀ v, t.originalValue = some v → |t.amount| = v * (39/5) := by
  induction lines generalizing prev with
  | nil => intro t ht; simp [biUSDStep] at ht
  | cons hd rest ih =>
    cases hd with
    | none =>
      intro t ht
      simp only [biUSDStep] at ht
      exact ih prev t ht
    | some l =>
      intro t ht
      simp only [biUSDStep] at ht
      rcases List.mem_cons.mp ht with h | h
      · subst h
        refine ⟨rfl, ?_⟩
        intro v hv
        rw [Option.some.injEq] at hv
        subst hv
        cases prev with
        | none =>
          show |(|l.amount * (39/5)|)| = |l.amount| * (39/5)
          rw [abs_abs, abs_mul]
          norm_num
        | some pb =>
          by_cases hb : l.balance * (39/5) - pb > 0
          · simp only [if_pos hb]
            show |(|l.amount * (39/5)|)| = |l.amount| * (39/5)
            rw [abs_abs, abs_mul]
            norm_num
          · simp only [if_neg hb]
            show |(-|l.amount * (39/5)|)| = |l.amount| * (39/5)
            rw [abs_neg, abs_abs, abs_mul]
            norm_num
      · exact ih _ t h

/-- A GyT USD line with value 1.01, whose exact conversion 7.878 is not a
two-decimal quantity. -/
def c7Line : GyTLine :=
  { date := ⟨2024, 4, 1⟩, reference := "R1", description := "AMAZON",
    currencyCode := "DOL", value := 101/100 }

/-- C7 counterexample: the claim says the stored amount is
`round(v * r, 2)`; the code stores `v * r` unrounded.  For `v = 1.01`,
`r = 7.8` the stored amount is `7.878` while `round(v*r, 2) = 7.88`. -/
theorem C7_counterexample :
    (gytParseLine false c7Line).amount = 3939/500 ∧
    round2 ((101/100 : ℚ) * (39/5)) = 788/100 ∧
    (3939/500 : ℚ) ≠ 788/100 := by
  refine ⟨?_, ?_, by norm_num⟩
  · have hclean : strRemoveChar '-' "DOL" = "DOL" := by decide
    have hmin : strStartsWith "DOL" "-" = false := by decide
    simp only [c7Line, gytParseLine, hclean, hmin]
    norm_num
  · rw [round2]
    have h10 : ((101/100 : ℚ) * (39/5)) * 100 + 1/2 = 7883/10 := by norm_num
    rw [h10]
    have hf : ⌊(7883/10 : ℚ)⌋ = 788 := by
      rw [Int.floor_eq_iff]
      norm_num
    rw [hf]
    norm_num

/-- C7 (amended): for a foreign-currency line with original value `v`
(sign applied from the currency group's minus flag) the stored amount is
exactly `v * 7.8` — no rounding to two decimals — and
`(original_value, original_currency)` is retained unchanged; in the BI
USD checking parser the stored magnitude likewise equals
`original_value * 7.8`. -/
theorem C7_main :
    (∀ (isSpouse : Bool) (l : GyTLine),
       strRemoveChar '-' l.currencyCode = "DOL" ∨ strRemoveChar '-' l.currencyCode = "USD" →
       (gytParseLine isSpouse l).originalCurrency = some "USD" ∧
       (gytParseLine isSpouse l).originalValue =
         some (if strStartsWith l.currencyCode "-" then -l.value else l.value) ∧
       (gytParseLine isSpouse l).amount =
         (if strStartsWith l.currencyCode "-" then -l.value else l.value) * (39/5)) ∧
    (∀ (isSpouse : Bool) (lines : List (Option BIUSDLine)),
       ∀ t ∈ biUSDParsePage isSpouse lines,
         t.originalCurrency = some "USD" ∧
         ∀ v, t.originalValue = some v → |t.amount| = v * (39/5)) := by
  constructor
  · intro sp l hcur
    simp [gytParseLine, if_pos hcur]
  · intro sp lines
    exact biUSDStep_currency sp none lines

/-- A BI USD checking line with amount 2 USD. -/
def c7wPage : List (Option BIUSDLine) :=
  [some { date := ⟨2024, 4, 2⟩, reference := none, description := "WIRE",
          amount := 2, balance := 10 }]

/-- C7 witness: the amended theorem instantiated on the concrete GyT line
and on a concrete BI USD checking page. -/
theorem C7_witness :
    (gytParseLine false c7Line).originalCurrency = some "USD" ∧
    (gytParseLine false c7Line).originalValue = some (101/100 : ℚ) ∧
    (biUSDParsePage false c7wPage).head!.originalCurrency = some "USD" ∧
    |(biUSDParsePage false c7wPage).head!.amount| = |(2 : ℚ)| * (39/5) :=
  ⟨(C7_main.1 false c7Line (by decide)).1,
   (C7_main.1 false c7Line (by decide)).2.1,
   (C7_main.2 false c7wPage _ (List.head!_mem_self (by decide))).1,
   (C7_main.2 false c7wPage _ (List.head!_mem_self (by decide))).2 |(2 : ℚ)| rfl⟩

/-! # Claim C8 -/

/-- Two non-whitespace characters separated by 48 interior spaces: its
stripped length is 50 although it has only 2 non-whitespace characters. -/
def c8Text : String := "a" ++ String.mk (List.replicate 48 ' ') ++ "b"

/-- C8 counterexample: the claim states the direct text is returned iff
it has at least 50 non-whitespace characters, but the code thresholds
`len(text.strip())`, which counts interior whitespace: `c8Text` has only
2 non-whitespace characters yet is returned as-is. -/
theorem C8_counterexample :
    pdfProcess [c8Text] ["OCRRESULT"] = c8Text ∧
    countNonWhitespace c8Text = 2 ∧
    ¬ 50 ≤ countNonWhitespace c8Text := by
  refine ⟨by decide, by decide, by decide⟩

/-- C8 (amended): direct per-page extraction joined by newlines is
returned exactly when the result, stripped of leading and trailing
whitespace only, has length at least 50 (interior whitespace counted);
otherwise the per-page OCR outputs joined by newlines in page order are
returned instead. -/
theorem C8_main :
    ∀ (pages ocrPages : List String),
      (50 ≤ (trimChars (extract_text pages).data).length →
        pdfProcess pages ocrPages = extract_text pages) ∧
      ((trimChars (extract_text pages).data).length < 50 →
        pdfProcess pages ocrPages = process_with_ocr ocrPages) ∧
      extract_text pages = strJoinNewline pages ∧
      process_with_ocr ocrPages = strJoinNewline ocrPages := by
  intro pages ocr
  refine ⟨?_, ?_, rfl, rfl⟩
  · intro h
    have hne : (extract_text pages).data ≠ [] := by
      intro hnil
      rw [hnil] at h
      simp [trimChars] at h
    have hne2 : (extract_text pages).data.isEmpty = false := by
      cases hd : (extract_text pages).data with
      | nil => exact absurd hd hne
      | cons a l => rfl
    have hval : is_valid_text (extract_text pages) = true := by
      simp [is_valid_text, hne2, h]
    simp [pdfProcess, hval]
  · intro h
    have hval : is_valid_text (extract_text pages) = false := by
      unfold is_valid_text
      rw [decide_eq_false (not_le.mpr h)]
      simp
    simp [pdfProcess, hval]

/-- Sixty non-whitespace characters: passes the threshold. -/
def c8LongText : String := String.mk (List.replicate 60 'x')

/-- C8 witness: the amended theorem instantiated on a long direct text
(returned as-is) and a short one (OCR fallback, page order preserved). -/
theorem C8_witness :
    pdfProcess [c8LongText] ["OCR"] = extract_text [c8LongText] ∧
    pdfProcess ["tiny"] ["OCR PAGE ONE", "OCR PAGE TWO"] =
      process_with_ocr ["OCR PAGE ONE", "OCR PAGE TWO"] :=
  ⟨(C8_main [c8LongText] ["OCR"]).1 (by decide),
   (C8_main ["tiny"] ["OCR PAGE ONE", "OCR PAGE TWO"]).2.1 (by decide)⟩

/-! # Claim C9 -/

theorem ite_credit_iff (A : ℚ) :
    ((if 0 ≤ A then TransType.credit else TransType.debit) = TransType.credit ↔ 0 ≤ A) ∧
    (A = 0 → (if 0 ≤ A then TransType.credit else TransType.debit) = TransType.credit) := by
  constructor
  · by_cases h : 0 ≤ A <;> simp [h]
  · intro h
    simp [h]

/-- C9: the GyT transaction type is a pure function of the sign of the
converted amount — credit exactly when `amount ≥ 0` (so an amount of
`0.00` is always credit) — and the page parse is a per-line map with no
state threaded between lines and no type-code table consulted. -/
theorem C9_main :
    (∀ (isSpouse : Bool) (lines : List (Option GyTLine)),
       gytParsePage isSpouse lines = (lines.filterMap id).map (gytParseLine isSpouse)) ∧
    (∀ (isSpouse : Bool) (l : GyTLine),
       ((gytParseLine isSpouse l).transactionType = TransType.credit ↔
         0 ≤ (gytParseLine isSpouse l).amount) ∧
       ((gytParseLine isSpouse l).amount = 0 →
         (gytParseLine isSpouse l).transactionType = TransType.credit)) := by
  constructor
  · intro sp lines
    induction lines with
    | nil => rfl
    | cons hd rest ih =>
      cases hd with
      | none => simp [gytParsePage, ih]
      | some l => simp [gytParsePage, ih]
  · intro sp l
    simp only [gytParseLine]
    exact ite_credit_iff _

/-- A GyT GTQ line with value 0.00. -/
def c9Line : GyTLine :=
  { date := ⟨2024, 5, 1⟩, reference := "R", description := "PAGO",
    currencyCode := "GTQ", value := 0 }

/-- C9 witness: the zero-amount line is classified credit, through the
theorem's sign characterisation. -/
theorem C9_witness :
    (gytParseLine false c9Line).transactionType = TransType.credit ∧
    gytParsePage false [some c9Line, none] = [gytParseLine false c9Line] :=
  ⟨(C9_main.2 false c9Line).2 (by rfl),
   C9_main.1 false [some c9Line, none]⟩

/-! # Claim C10 -/

/-- C10: the CSV row amount comes from `Debe` whenever that stripped cell
is non-empty and not `'nan'`, and only otherwise from `Haber`,
independently of the `TT` code; a row with neither cell usable produces
no transaction while the remaining rows are still processed. -/
theorem C10_main :
    (∀ (row : CSVRow) (year : Nat) (t : Transaction),
       parseTransactionRow row year = some t →
       some t.amount = (rowAmount (strTrim row.debe) (strTrim row.haber)).map (fun q => |q|)) ∧
    (∀ debeValue haberValue : String,
       (cellUsable debeValue = true →
         rowAmount debeValue haberValue = parseFloat (strRemoveChar ',' debeValue)) ∧
       (cellUsable debeValue = false → cellUsable haberValue = true →
         rowAmount debeValue haberValue = parseFloat (strRemoveChar ',' haberValue))) ∧
    (∀ (row : CSVRow) (year : Nat),
       cellUsable (strTrim row.debe) = false → cellUsable (strTrim row.haber) = false →
       parseTransactionRow row year = none) ∧
    (∀ (rows₁ rows₂ : List CSVRow) (r : CSVRow) (year : Nat),
       parseTransactionRow r year = none →
       biCSVParseRows (rows₁ ++ r :: rows₂) year = biCSVParseRows (rows₁ ++ rows₂) year) ∧
    (∀ (row : CSVRow) (year : Nat) (c₁ c₂ : String),
       (parseTransactionRow { row with tt := c₁ } year).map Transaction.amount =
         (parseTransactionRow { row with tt := c₂ } year).map Transaction.amount) := by
  refine ⟨parseTransactionRow_amount_source, ?_, parseTransactionRow_no_amount, ?_, ?_⟩
  · intro debeValue haberValue
    constructor
    · intro h
      simp [rowAmount, h]
    · intro hd hh
      simp [rowAmount, hd, hh]
  · intro rows₁ rows₂ r year h
    simp [biCSVParseRows, List.filterMap_append, List.filterMap_cons, h]
  · intro row year c₁ c₂
    simp only [parseTransactionRow]
    repeat' split
    all_goals rfl

/-- A CSV row with both `Debe` and `Haber` usable: `Debe` must win. -/
def c10Row : CSVRow :=
  { fecha := "03-10", tt := "ND", descripcion := "CHEQUE",
    debe := "25.00", haber := "99.00" }

/-- A CSV row with an empty `Debe` and a pandas-`nan` `Haber`. -/
def c10EmptyRow : CSVRow :=
  { fecha := "04-10", tt := "NC", descripcion := "VACIO", debe := "", haber := "nan" }

/-- C10 witness: the theorem instantiated on a row where both cells are
present (the amount is `Debe`'s), on a row with no usable amount cell (no
transaction, neighbours still parsed), and on the `TT`-independence
conjunct. -/
theorem C10_witness :
    some ((parseTransactionRow c10Row 2025).get (by rfl)).amount =
        (rowAmount (strTrim c10Row.debe) (strTrim c10Row.haber)).map (fun q => |q|) ∧
    rowAmount "25.00" "99.00" = parseFloat (strRemoveChar ',' "25.00") ∧
    parseTransactionRow c10EmptyRow 2025 = none ∧
    biCSVParseRows [c10Row, c10EmptyRow] 2025 = biCSVParseRows [c10Row] 2025 ∧
    (parseTransactionRow { c10Row with tt := "XY" } 2025).map Transaction.amount =
      (parseTransactionRow { c10Row with tt := "NC" } 2025).map Transaction.amount :=
  ⟨C10_main.1 c10Row 2025 _ (Option.some_get _).symm,
   (C10_main.2.1 "25.00" "99.00").1 (by decide),
   C10_main.2.2.1 c10EmptyRow 2025 (by decide) (by decide),
   C10_main.2.2.2.1 [c10Row] [] c10EmptyRow 2025
     (C10_main.2.2.1 c10EmptyRow 2025 (by decide) (by decide)),
   C10_main.2.2.2.2 c10Row 2025 "XY" "NC"⟩

end StatementReader
